import Mathlib

/-!
Shallow embedding of the reliability core of the `lattiq/mailer` Go library:
error classification, retry manager, rate limiter, circuit breaker, and the
client orchestration (`Send`, `SendBatch`, `Close`).

Modelling conventions:
* Go `error` values are modelled by `Option GoError` (`none` = `nil`).
* `time.Duration` (int64 nanoseconds) and timestamps are modelled by `ℤ`;
  `time.Since(t)` at instant `now` is `now - t`.
* Go float64 arithmetic in the backoff computation is modelled by exact
  rational arithmetic (`ℚ`); the float64-to-int64 conversion
  `time.Duration(f)` truncates toward zero, modelled by `truncQ`.
* The `context.Context` passed to the core is modelled as never cancelled:
  the claims under study involve no cancellation, and every `select` in the
  source then reduces to its non-`ctx.Done()` branches.
* The rate limiter's token channel is modelled by its length (a `ℕ`);
  a channel receive with `default` succeeds exactly when the length is
  positive.
* External collaborators (providers, `mail.ParseAddress`) are oracles:
  providers are functions from the call counter to a result, address
  parsing is a boolean oracle over addresses.
-/

set_option autoImplicit false

/-- Division of Go integers (`int`, `int64`, `time.Duration`): truncation
toward zero. Division by zero is never exercised by the claims; the model
returns 0 there. -/
def goDiv (a b : ℤ) : ℤ :=
  Int.sign a * Int.sign b * ((a.natAbs / b.natAbs : ℕ) : ℤ)

/-- Conversion of a rational to an integer truncating toward zero, the
semantics of Go's float64-to-int64 conversion `time.Duration(f)`: the
numerator divided by the (positive) denominator, rounding the quotient
toward zero. -/
def truncQ (q : ℚ) : ℤ :=
  if 0 ≤ q.num then ((q.num.toNat / q.den : ℕ) : ℤ)
  else -(((-q.num).toNat / q.den : ℕ) : ℤ)

/-- Error values of the mailer package, one constructor per concrete Go
error type (or sentinel) that the reliability core can observe.
`providerErr` is `*core.ProviderError` (its `Cause` field drives `Unwrap`);
`rateLimit` is `*RateLimitError`; `validation` is `*core.ValidationError`;
`indexWrap` is the `fmt.Errorf("email at index %d: %w", i, err)` wrapper
built by `Client.SendBatch`; `batchErr` is `*BatchError` (the `Bool` field
distinguishes the "fallback individual send" message of
`sendBatchIndividually` from the plain `SendBatch` message);
`circuitBreakerOpen` and `clientClosed` are the sentinels
`ErrCircuitBreakerOpen` and `ErrClientClosed`. -/
inductive GoError where
  | validation (field message : String)
  | providerErr (name code message : String) (statusCode : ℤ)
      (retryable temporary : Bool) (cause : Option GoError)
  | rateLimit (message : String) (retryAfter : ℤ)
  | indexWrap (index : ℕ) (inner : GoError)
  | wrap (message : String) (inner : GoError)
  | batchErr (inIndividual : Bool) (total failed : ℕ)
      (failures : List (ℕ × GoError))
  | circuitBreakerOpen
  | clientClosed
  deriving Repr

/-- Walk of `errors.As(err, &pe)` for `pe : *ProviderError`: the error
itself, then its `Unwrap` chain. Of the modelled error types only
`ProviderError` (`Cause`) and the `fmt.Errorf` `%w` wrapper unwrap.
Returns the `IsRetryable` flag of the found `*ProviderError`. -/
def asProviderRetryable : GoError → Option Bool
  | .providerErr _ _ _ _ r _ _ => some r
  | .indexWrap _ inner => asProviderRetryable inner
  | .wrap _ inner => asProviderRetryable inner
  | _ => none

/-- Model of `core.IsRetryable`. A `nil` error is not retryable; a type
assertion to `RetryableError` succeeds only for `*ProviderError` (the sole
modelled type with a `Retryable()` method); otherwise `errors.As` searches
the unwrap chain for a `*ProviderError`. -/
def IsRetryable : Option GoError → Bool
  | none => false
  | some (.providerErr _ _ _ _ r _ _) => r
  | some e =>
    match asProviderRetryable e with
    | some r => r
    | none => false

/-- Model of `core.GetRetryAfter`. No error type in the repository defines
a `RetryAfter() time.Duration` method (`*RateLimitError` only has the
`RetryAfterDuration` field and `Error()`), so the interface type assertion
always fails and the function returns 0 for every error. -/
def GetRetryAfter : Option GoError → ℤ := fun _ => 0

/-- Email address, `core.Address`. -/
structure Address where
  Name : String
  Email : String
  deriving Repr, DecidableEq

/-- Email message, `core.Email` (the fields the reliability core reads). -/
structure Email where
  From : Address
  To : List Address
  CC : List Address
  BCC : List Address
  Subject : String
  HTMLBody : String
  TextBody : String
  deriving Repr

/-- White space per Go's `unicode.IsSpace` in the Latin-1 range (space,
tab, newline, vertical tab, form feed, carriage return, NEL, NBSP). -/
def isGoSpace (c : Char) : Bool :=
  c == ' ' || c == '\t' || c == '\n' || c == '\x0b' || c == '\x0c' ||
  c == '\r' || c == '\x85' || c == '\xA0'

/-- Model of `strings.TrimSpace`: drop leading and trailing white space. -/
def trimSpace (s : String) : String :=
  String.mk (((s.data.dropWhile isGoSpace).reverse.dropWhile isGoSpace).reverse)

/-- Model of `core.Address.Valid`: an empty address fails, otherwise the
result of `mail.ParseAddress` is the oracle `parseOk`. -/
def Address.Valid (parseOk : Address → Bool) (a : Address) : Bool :=
  a.Email ≠ "" && parseOk a

/-- Index of the first address in the list failing `Address.Valid`,
mirroring the `for i, a := range` validation loops of `core.Email.Validate`. -/
def firstInvalidAddr (parseOk : Address → Bool) : List Address → Option ℕ
  | [] => none
  | a :: rest =>
    if Address.Valid parseOk a then
      (firstInvalidAddr parseOk rest).map (· + 1)
    else
      some 0

/-- Model of `core.Email.Validate`: sender check, nonempty `To`, per-list
recipient checks, nonblank subject, nonblank body, in source order. -/
def Email.Validate (parseOk : Address → Bool) (e : Email) : Option GoError :=
  if ¬ Address.Valid parseOk e.From then
    some (.validation "from" "invalid or missing sender address")
  else if e.To = [] then
    some (.validation "to" "at least one recipient required")
  else
    match firstInvalidAddr parseOk e.To with
    | some i => some (.validation "to" ("invalid recipient address at index " ++ toString i))
    | none =>
      match firstInvalidAddr parseOk e.CC with
      | some i => some (.validation "cc" ("invalid CC address at index " ++ toString i))
      | none =>
        match firstInvalidAddr parseOk e.BCC with
        | some i => some (.validation "bcc" ("invalid BCC address at index " ++ toString i))
        | none =>
          if trimSpace e.Subject = "" then
            some (.validation "subject" "subject is required")
          else if trimSpace e.TextBody = "" ∧ trimSpace e.HTMLBody = "" then
            some (.validation "body" "either text or HTML body is required")
          else
            none

/-- Model of `core.Email.TotalRecipients`. -/
def Email.TotalRecipients (e : Email) : ℕ :=
  e.To.length + e.CC.length + e.BCC.length

/-- Retry policy configuration, `RetryConfig` (durations in nanoseconds). -/
structure RetryConfig where
  Enabled : Bool
  MaxAttempts : ℤ
  InitialDelay : ℤ
  MaxDelay : ℤ
  Multiplier : ℚ
  Jitter : Bool
  deriving Repr

/-- Model of `RetryManager.calculateDelay`. Exponential backoff
`time.Duration(float64(InitialDelay) * math.Pow(Multiplier, attempt-1))`
(float64 arithmetic modelled exactly over `ℚ`, the conversion to
`time.Duration` truncating toward zero), capped at `MaxDelay`, plus — when
jitter is enabled — a draw from `crypto/rand` in `[0, maxJitter)` modelled
by the oracle `jitterDraw`. Every call site passes `attempt ≥ 1`, so the
float exponent `attempt - 1` is modelled by `(attempt - 1).toNat`. -/
def RetryManager.calculateDelay (cfg : RetryConfig) (jitterDraw : ℤ → ℤ)
    (attempt : ℤ) : ℤ :=
  let delay0 := truncQ ((cfg.InitialDelay : ℚ) * cfg.Multiplier ^ (attempt - 1).toNat)
  let delay1 := if cfg.MaxDelay < delay0 then cfg.MaxDelay else delay0
  if cfg.Jitter then
    let maxJitter := truncQ ((delay1 : ℚ) * (1 / 10))
    if 0 < maxJitter then delay1 + jitterDraw maxJitter else delay1
  else
    delay1

/-- Loop of `RetryManager.Retry`, for `attempt = 1 .. MaxAttempts`.
`remaining` counts the loop iterations still allowed including the current
one (so `remaining = 1` means `attempt == MaxAttempts`). The unit of work
`fn` acts on an explicit state `s : σ`; the performed inter-attempt sleeps
are accumulated in `delays`. The context is never cancelled, so the
`select` always takes the `time.After` branch. -/
def retryGo {σ : Type} (cfg : RetryConfig) (jitterDraw : ℤ → ℤ)
    (fn : σ → Option GoError × σ) :
    ℕ → ℤ → Option GoError → σ → List ℤ → Option GoError × σ × List ℤ
  | 0, _, lastErr, s, delays => (lastErr, s, delays)
  | remaining + 1, attempt, _, s, delays =>
    match fn s with
    | (none, s1) => (none, s1, delays)
    | (some err, s1) =>
      if ¬ IsRetryable (some err) then
        (some err, s1, delays)
      else if remaining = 0 then
        (some err, s1, delays)
      else
        let delay := RetryManager.calculateDelay cfg jitterDraw attempt
        let delay := if 0 < GetRetryAfter (some err) then GetRetryAfter (some err) else delay
        retryGo cfg jitterDraw fn remaining (attempt + 1) (some err) s1 (delays ++ [delay])

/-- Model of `RetryManager.Retry`. If retries are disabled the unit of
work runs exactly once; otherwise the loop runs for at most `MaxAttempts`
attempts (none when `MaxAttempts ≤ 0`, in which case the Go loop body
never executes and `lastErr = nil` is returned). -/
def RetryManager.Retry {σ : Type} (cfg : RetryConfig) (jitterDraw : ℤ → ℤ)
    (fn : σ → Option GoError × σ) (s : σ) : Option GoError × σ × List ℤ :=
  if ¬ cfg.Enabled then
    let (e, s1) := fn s
    (e, s1, [])
  else
    retryGo cfg jitterDraw fn cfg.MaxAttempts.toNat 1 none s []

/-- Rate limiting configuration, `RateLimitConfig`. -/
structure RateLimitConfig where
  Enabled : Bool
  Rate : ℤ
  Period : ℤ
  Burst : ℤ
  PerRecipient : Bool
  deriving Repr

/-- Token-acquisition loop of `RateLimiter.Wait`: `needed` receives from
the token channel, each taking one buffered token when available and
otherwise hitting the `default` branch, which returns a
`NewRateLimitError` with `retryAfter = Period / Rate`. Tokens taken by
earlier iterations stay consumed. -/
def acquireTokens (cfg : RateLimitConfig) : ℕ → ℕ → Option GoError × ℕ
  | 0, tokens => (none, tokens)
  | needed + 1, tokens =>
    match tokens with
    | t + 1 => acquireTokens cfg needed t
    | 0 => (some (.rateLimit "rate limit exceeded" (goDiv cfg.Period cfg.Rate)), 0)

/-- Model of `RateLimiter.Wait` over the bucket occupancy `tokens` (the
length of the buffered token channel). With per-recipient limiting the
weight is the email's total recipient count, otherwise 1. -/
def RateLimiter.Wait (cfg : RateLimitConfig) (email : Email) (tokens : ℕ) :
    Option GoError × ℕ :=
  if ¬ cfg.Enabled then
    (none, tokens)
  else
    let tokensNeeded := if cfg.PerRecipient then email.TotalRecipients else 1
    acquireTokens cfg tokensNeeded tokens

/-- Circuit breaker configuration, `CircuitBreakerConfig` (durations in
nanoseconds). -/
structure CircuitBreakerConfig where
  Enabled : Bool
  FailureThreshold : ℤ
  SuccessThreshold : ℤ
  Timeout : ℤ
  ResetTimeout : ℤ
  deriving Repr

/-- States of the circuit breaker, `CircuitBreakerState`. -/
inductive CircuitBreakerState where
  | Closed
  | Open
  | HalfOpen
  deriving Repr, DecidableEq

/-- Mutable state of a `CircuitBreaker` (timestamps in nanoseconds;
`lastFailTime = 0` models Go's zero `time.Time`). -/
structure CBState where
  state : CircuitBreakerState
  failureCount : ℤ
  successCount : ℤ
  lastFailTime : ℤ
  deriving Repr, DecidableEq

/-- Model of `NewCircuitBreaker`: Closed with zeroed counters. -/
def NewCircuitBreaker : CBState :=
  { state := .Closed, failureCount := 0, successCount := 0, lastFailTime := 0 }

/-- Model of `CircuitBreaker.canExecute` at instant `now`. In the Open
state, once `Timeout` has elapsed since the last failure the state moves
to HalfOpen (resetting `successCount`) and the call is admitted; in the
single-threaded model the double-checked re-test always agrees with the
first test. Returns the admission decision and the possibly updated
state. -/
def CircuitBreaker.canExecute (cfg : CircuitBreakerConfig) (now : ℤ)
    (cb : CBState) : Bool × CBState :=
  match cb.state with
  | .Closed => (true, cb)
  | .Open =>
    if cfg.Timeout ≤ now - cb.lastFailTime then
      (true, { cb with state := .HalfOpen, successCount := 0 })
    else
      (false, cb)
  | .HalfOpen => (true, cb)

/-- Model of `CircuitBreaker.recordResult` at instant `now`; `isErr` tells
whether the executed operation returned a non-nil error. -/
def CircuitBreaker.recordResult (cfg : CircuitBreakerConfig) (now : ℤ)
    (isErr : Bool) (cb : CBState) : CBState :=
  if isErr then
    let cb1 := { cb with failureCount := cb.failureCount + 1, lastFailTime := now }
    if cb1.state = .Closed ∧ cfg.FailureThreshold ≤ cb1.failureCount then
      { cb1 with state := .Open }
    else if cb1.state = .HalfOpen then
      { cb1 with state := .Open }
    else
      cb1
  else
    let cb1 := { cb with successCount := cb.successCount + 1 }
    let cb2 :=
      if cb1.state = .HalfOpen ∧ cfg.SuccessThreshold ≤ cb1.successCount then
        { cb1 with state := .Closed, failureCount := 0 }
      else
        cb1
    if cb2.state = .Closed ∧ cfg.ResetTimeout ≤ now - cb2.lastFailTime then
      { cb2 with failureCount := 0 }
    else
      cb2

/-- Model of `CircuitBreaker.Execute` at instant `now` over the breaker
state `cb` and the caller state `s` threaded through the unit of work
`fn`. Disabled: run `fn` directly. Not admitted: return
`ErrCircuitBreakerOpen` without running `fn`. Admitted: run `fn` once and
record its outcome. -/
def CircuitBreaker.Execute {σ : Type} (cfg : CircuitBreakerConfig) (now : ℤ)
    (cb : CBState) (fn : σ → Option GoError × σ) (s : σ) :
    Option GoError × CBState × σ :=
  if ¬ cfg.Enabled then
    let (e, s1) := fn s
    (e, cb, s1)
  else
    let (ok, cb1) := CircuitBreaker.canExecute cfg now cb
    if ¬ ok then
      (some .circuitBreakerOpen, cb1, s)
    else
      let (e, s1) := fn s
      (e, CircuitBreaker.recordResult cfg now e.isSome cb1, s1)

/-- Observable outcome of a client call: a Go panic (runtime error that
aborts the call), a returned non-nil error, or a nil return. -/
inductive SendOutcome where
  | panic (msg : String)
  | err (e : GoError)
  | ok
  deriving Repr

/-- Client configuration as assembled by `New`: the `closed` flag and the
presence/configuration of the optional subsystems. `New` installs the
retry manager, rate limiter, and circuit breaker exactly when the
corresponding config has `Enabled` set, and the fallback provider when one
is configured. `hasTemplateCloser` and `templateCloseErr` model whether
the template engine has a `Close() error` method and what it returns. -/
structure ClientCfg where
  closed : Bool
  hasFallback : Bool
  retryManager : Option RetryConfig
  rateLimiter : Option RateLimitConfig
  circuitBreaker : Option CircuitBreakerConfig
  hasTemplateCloser : Bool
  templateCloseErr : Option GoError
  deriving Repr

/-- Mutable state threaded through a `Client.Send` call, together with
instrumentation counters. `tokens` is the rate limiter's bucket occupancy
and `cb` the circuit breaker state. `primaryCalls` and `fallbackCalls`
count provider invocations (and index the provider oracles);
`unitCalls` counts invocations of the `sendFn` unit of work, and
`guardedUnitCalls` counts those invocations routed through
`CircuitBreaker.Execute`. -/
structure SendState where
  tokens : ℕ
  cb : CBState
  primaryCalls : ℕ
  fallbackCalls : ℕ
  unitCalls : ℕ
  guardedUnitCalls : ℕ
  deriving Repr

/-- Model of the `sendFn` closure in `Client.Send`: call the primary
provider; if it fails retryably and a fallback provider is configured,
call the fallback within the same attempt and return its result. The
provider oracles are indexed by their per-provider call counters. -/
def Client.sendFn (c : ClientCfg) (primary fallback : ℕ → Option GoError)
    (st : SendState) : Option GoError × SendState :=
  let st1 := { st with unitCalls := st.unitCalls + 1 }
  let e1 := primary st1.primaryCalls
  let st2 := { st1 with primaryCalls := st1.primaryCalls + 1 }
  if e1.isSome ∧ c.hasFallback ∧ IsRetryable e1 then
    let e2 := fallback st2.fallbackCalls
    (e2, { st2 with fallbackCalls := st2.fallbackCalls + 1 })
  else
    (e1, st2)

/-- The `sendFn` unit of work as handed to `CircuitBreaker.Execute`,
instrumented to count the invocation as breaker-guarded. -/
def Client.guardedSendFn (c : ClientCfg) (primary fallback : ℕ → Option GoError)
    (st : SendState) : Option GoError × SendState :=
  Client.sendFn c primary fallback
    { st with guardedUnitCalls := st.guardedUnitCalls + 1 }

/-- Steps 4–5 of `Client.Send`: run the unit of work through
`CircuitBreaker.Execute` when a breaker is configured, else directly. -/
def Client.sendGuardedPhase (c : ClientCfg) (primary fallback : ℕ → Option GoError)
    (now : ℤ) (st : SendState) : Option GoError × SendState :=
  match c.circuitBreaker with
  | some cbCfg =>
    let r := CircuitBreaker.Execute cbCfg now st.cb
      (Client.guardedSendFn c primary fallback) st
    (r.1, { r.2.2 with cb := r.2.1 })
  | none =>
    Client.sendFn c primary fallback st

/-- Step 6 of `Client.Send`: when the guarded result is a non-nil
retryable error and a retry manager is configured, hand `sendFn` (the
bare unit of work, not the breaker-guarded one) to `RetryManager.Retry`. -/
def Client.retryPhase (c : ClientCfg) (primary fallback : ℕ → Option GoError)
    (jitterDraw : ℤ → ℤ) (e : Option GoError) (st : SendState) :
    Option GoError × SendState :=
  match e, c.retryManager with
  | some err, some rcfg =>
    if IsRetryable (some err) then
      let r := RetryManager.Retry rcfg jitterDraw
        (Client.sendFn c primary fallback) st
      (r.1, r.2.1)
    else
      (some err, st)
  | e1, _ => (e1, st)

/-- Model of `Client.Send`: closed-client check, span attribute recording
(which reads `email.To[0].Email` and panics on an empty recipient list),
validation, rate limiting, breaker-guarded send, retry. -/
def Client.Send (c : ClientCfg) (parseOk : Address → Bool)
    (primary fallback : ℕ → Option GoError) (jitterDraw : ℤ → ℤ)
    (email : Email) (now : ℤ) (st : SendState) : SendOutcome × SendState :=
  if c.closed then
    (.err .clientClosed, st)
  else
    match email.To with
    | [] => (.panic "runtime error: index out of range", st)
    | _ :: _ =>
      match email.Validate parseOk with
      | some e => (.err e, st)
      | none =>
        let rl : Option GoError × ℕ :=
          match c.rateLimiter with
          | some rlCfg => RateLimiter.Wait rlCfg email st.tokens
          | none => (none, st.tokens)
        match rl with
        | (some e, tokens1) => (.err e, { st with tokens := tokens1 })
        | (none, tokens1) =>
          let st1 := { st with tokens := tokens1 }
          let g := Client.sendGuardedPhase c primary fallback now st1
          let r := Client.retryPhase c primary fallback jitterDraw g.1 g.2
          match r.1 with
          | some e => (.err e, r.2)
          | none => (.ok, r.2)

/-- Model of `Client.Close`: returns the error, the updated client, and
whether the resource-release action (the template engine's `Close`) ran
during this call. -/
def Client.Close (c : ClientCfg) : Option GoError × ClientCfg × Bool :=
  if c.closed then
    (none, c, false)
  else
    let c1 := { c with closed := true }
    if c1.hasTemplateCloser then
      match c1.templateCloseErr with
      | some e => (some (.wrap "failed to close template engine" e), c1, true)
      | none => (none, c1, true)
    else
      (none, c1, false)

/-- Result of a provider's native batch call, `core.BatchResult` (the
fields `Client.SendBatch` reads: the count of successes and the per-index
failures). -/
structure BatchResult where
  Total : ℕ
  SuccessCount : ℕ
  Failed : List (ℕ × GoError)
  deriving Repr

/-- State threaded through a `Client.SendBatch` call: the per-send state
plus the count of provider-native batch calls (indexing the batch
provider oracle). -/
structure BatchState where
  send : SendState
  batchCalls : ℕ
  deriving Repr

/-- First email failing validation, with its index and validation error —
the `for i, email := range emails` validation loop of `Client.SendBatch`. -/
def firstInvalidEmail (parseOk : Address → Bool) : List Email → Option (ℕ × GoError)
  | [] => none
  | e :: rest =>
    match e.Validate parseOk with
    | some err => some (0, err)
    | none => (firstInvalidEmail parseOk rest).map (fun p => (p.1 + 1, p.2))

/-- Loop of `Client.sendBatchIndividually`: for each email (at original
index `i`) record a child span (reading `email.To[0].Email`, a panic on an
empty recipient list) and call `Client.Send`, accumulating success and
failure counts and the per-index errors. A panic aborts the loop. -/
def sendIndividualLoop (c : ClientCfg) (parseOk : Address → Bool)
    (primary fallback : ℕ → Option GoError) (jitterDraw : ℤ → ℤ) (now : ℤ) :
    List Email → ℕ → SendState → ℕ → ℕ → List (ℕ × GoError) →
    Except String (SendState × ℕ × ℕ × List (ℕ × GoError))
  | [], _, st, succ, fail, errs => .ok (st, succ, fail, errs)
  | e :: rest, i, st, succ, fail, errs =>
    match e.To with
    | [] => .error "runtime error: index out of range"
    | _ :: _ =>
      match Client.Send c parseOk primary fallback jitterDraw e now st with
      | (.panic m, _) => .error m
      | (.err er, st1) =>
        sendIndividualLoop c parseOk primary fallback jitterDraw now
          rest (i + 1) st1 succ (fail + 1) (errs ++ [(i, er)])
      | (.ok, st1) =>
        sendIndividualLoop c parseOk primary fallback jitterDraw now
          rest (i + 1) st1 (succ + 1) fail errs

/-- Model of `Client.sendBatchIndividually`: send each email through
`Client.Send`, then return a `BatchError` (with the "fallback individual
send" message) when any failed, else nil. -/
def Client.sendBatchIndividually (c : ClientCfg) (parseOk : Address → Bool)
    (primary fallback : ℕ → Option GoError) (jitterDraw : ℤ → ℤ) (now : ℤ)
    (emails : List Email) (st : SendState) : SendOutcome × SendState :=
  match sendIndividualLoop c parseOk primary fallback jitterDraw now
      emails 0 st 0 0 [] with
  | .error m => (.panic m, st)
  | .ok (st1, _, fail, errs) =>
    if 0 < fail then
      (.err (.batchErr true emails.length fail errs), st1)
    else
      (.ok, st1)

/-- Model of `Client.SendBatch`: closed-client check, empty-batch no-op,
upfront validation of every email (failing on the first invalid one),
provider-native batch call, degradation to individual sends when the
batch call fails outright and a fallback is configured, and aggregation of
per-index failures into a `BatchError`. -/
def Client.SendBatch (c : ClientCfg) (parseOk : Address → Bool)
    (primary fallback : ℕ → Option GoError)
    (batchProvider : ℕ → Except GoError BatchResult) (jitterDraw : ℤ → ℤ)
    (emails : List Email) (now : ℤ) (st : BatchState) : SendOutcome × BatchState :=
  if c.closed then
    (.err .clientClosed, st)
  else if emails.length = 0 then
    (.ok, st)
  else
    match firstInvalidEmail parseOk emails with
    | some (i, e) => (.err (.indexWrap i e), st)
    | none =>
      let res := batchProvider st.batchCalls
      let st1 := { st with batchCalls := st.batchCalls + 1 }
      match res with
      | .error e =>
        if c.hasFallback then
          let r := Client.sendBatchIndividually c parseOk primary fallback
            jitterDraw now emails st1.send
          (r.1, { st1 with send := r.2 })
        else
          (.err e, st1)
      | .ok br =>
        if 0 < br.Failed.length then
          (.err (.batchErr false emails.length br.Failed.length br.Failed), st1)
        else
          (.ok, st1)

/-- Fold of consecutive failure recordings on a circuit breaker, each at
its own timestamp. -/
def applyFailures (cfg : CircuitBreakerConfig) (ts : List ℤ) (cb : CBState) : CBState :=
  ts.foldl (fun acc t => CircuitBreaker.recordResult cfg t true acc) cb

/-! ### Concrete scenario instances used by witnesses and counterexamples -/

/-- Closed client with a closable template engine. -/
def closedClientW : ClientCfg :=
  { closed := true, hasFallback := false, retryManager := none,
    rateLimiter := none, circuitBreaker := none,
    hasTemplateCloser := true, templateCloseErr := none }

/-- Backoff configuration with a fractional per-step product:
3ns initial delay, multiplier 1.5. -/
def cfgC5 : RetryConfig :=
  { Enabled := true, MaxAttempts := 3, InitialDelay := 3, MaxDelay := 100,
    Multiplier := 3/2, Jitter := false }

/-- Non-retryable validation error used as a unit-of-work failure. -/
def valErrW : GoError := .validation "subject" "subject is required"

/-- Enabled retry configuration with several attempts allowed. -/
def cfgC6 : RetryConfig :=
  { Enabled := true, MaxAttempts := 5, InitialDelay := 1, MaxDelay := 10,
    Multiplier := 2, Jitter := false }

/-- Enabled per-recipient rate limit: 10 per 1000ns, burst 5. -/
def rlCfgC2 : RateLimitConfig :=
  { Enabled := true, Rate := 10, Period := 1000, Burst := 5, PerRecipient := true }

/-- Email with three recipients (weight 3 under per-recipient limiting). -/
def emailThree : Email :=
  { From := ⟨"", "sender@example.com"⟩,
    To := [⟨"", "a@example.com"⟩, ⟨"", "b@example.com"⟩, ⟨"", "c@example.com"⟩],
    CC := [], BCC := [], Subject := "hi", HTMLBody := "", TextBody := "body" }

/-- Enabled breaker with failure threshold 2 and open timeout 100ns. -/
def cbCfgW : CircuitBreakerConfig :=
  { Enabled := true, FailureThreshold := 2, SuccessThreshold := 1,
    Timeout := 100, ResetTimeout := 50 }

/-- Retryable provider error (a temporary SMTP failure). -/
def provErrRetry : GoError := .providerErr "smtp" "tmp" "temporary failure" 0 true false none

/-- Address-parsing oracle accepting every address. -/
def parseAll : Address → Bool := fun _ => true

/-- Valid email with a single recipient. -/
def emailOkW : Email :=
  { From := ⟨"", "sender@example.com"⟩, To := [⟨"", "rcpt@example.com"⟩],
    CC := [], BCC := [], Subject := "hi", HTMLBody := "", TextBody := "body" }

/-- Email with an empty recipient list (otherwise well-formed). -/
def emailNoTo : Email :=
  { From := ⟨"", "sender@example.com"⟩, To := [],
    CC := [], BCC := [], Subject := "hi", HTMLBody := "", TextBody := "body" }

/-- Fresh per-send state: empty bucket, fresh breaker, zeroed counters. -/
def sendSt0 : SendState :=
  { tokens := 0, cb := NewCircuitBreaker, primaryCalls := 0, fallbackCalls := 0,
    unitCalls := 0, guardedUnitCalls := 0 }

/-- Fresh batch state. -/
def bst0 : BatchState := { send := sendSt0, batchCalls := 0 }

/-- Provider that always fails with a retryable error. -/
def provFailR : ℕ → Option GoError := fun _ => some provErrRetry

/-- Provider that always succeeds. -/
def provOk : ℕ → Option GoError := fun _ => none

/-- Batch provider whose native batch call always fails outright. -/
def batchFail : ℕ → Except GoError BatchResult :=
  fun _ => .error (.providerErr "primary" "batch" "batch send failed" 0 false false none)

/-- Open client with a fallback provider and no other subsystems. -/
def clientFb : ClientCfg :=
  { closed := false, hasFallback := true, retryManager := none, rateLimiter := none,
    circuitBreaker := none, hasTemplateCloser := false, templateCloseErr := none }

/-- Retry configuration with two attempts. -/
def rcfgC1 : RetryConfig :=
  { Enabled := true, MaxAttempts := 2, InitialDelay := 1, MaxDelay := 10,
    Multiplier := 2, Jitter := false }

/-- Breaker that opens on the first failure and stays open for a long time. -/
def cbCfgC1 : CircuitBreakerConfig :=
  { Enabled := true, FailureThreshold := 1, SuccessThreshold := 1,
    Timeout := 1000000, ResetTimeout := 0 }

/-- Open client with both a circuit breaker and a retry manager. -/
def clientC1 : ClientCfg :=
  { closed := false, hasFallback := false, retryManager := some rcfgC1,
    rateLimiter := none, circuitBreaker := some cbCfgC1,
    hasTemplateCloser := false, templateCloseErr := none }

/-! ### Helper lemmas -/

/-- On a nonnegative rational, truncation toward zero agrees with the floor. -/
lemma truncQ_nonneg (q : ℚ) (h : 0 ≤ q) : truncQ q = ⌊q⌋ := by
  have hn : 0 ≤ q.num := Rat.num_nonneg.mpr h
  simp only [truncQ, if_pos hn]
  rw [Rat.floor_def, Int.ofNat_tdiv, Int.toNat_of_nonneg hn,
    Int.tdiv_eq_ediv hn (Int.ofNat_nonneg _)]

/-- With jitter disabled, the backoff delay is exactly the truncated
exponential product capped at `MaxDelay`. -/
lemma calculateDelay_nojitter (cfg : RetryConfig) (jd : ℤ → ℤ) (attempt : ℤ)
    (h1 : cfg.Jitter = false) :
    RetryManager.calculateDelay cfg jd attempt =
      min (truncQ ((cfg.InitialDelay : ℚ) * cfg.Multiplier ^ (attempt - 1).toNat)) cfg.MaxDelay := by
  simp only [RetryManager.calculateDelay, h1, Bool.false_eq_true, if_false]
  split <;> omega

/-- Requesting more tokens than the bucket holds drains the bucket and
fails with the computed retry-after. -/
lemma acquireTokens_insufficient (cfg : RateLimitConfig) :
    ∀ (n t : ℕ), t < n →
      acquireTokens cfg n t =
        (some (.rateLimit "rate limit exceeded" (goDiv cfg.Period cfg.Rate)), 0) := by
  intro n
  induction n with
  | zero => intro t h; omega
  | succ n ih =>
    intro t h
    cases t with
    | zero => rfl
    | succ t =>
      simp only [acquireTokens]
      exact ih t (by omega)

/-- Recording failures that keep the count below the threshold leaves the
breaker Closed, with the count increased by the number of failures. -/
lemma applyFailures_closed (cfg : CircuitBreakerConfig) :
    ∀ (ts : List ℤ) (cb : CBState), cb.state = .Closed →
      (cb.failureCount + ts.length : ℤ) < cfg.FailureThreshold →
      (applyFailures cfg ts cb).state = .Closed ∧
      (applyFailures cfg ts cb).failureCount = cb.failureCount + ts.length := by
  intro ts
  induction ts with
  | nil => intro cb h1 h2; simpa [applyFailures] using h1
  | cons t rest ih =>
    intro cb h1 h2
    have hnotth : ¬ cfg.FailureThreshold ≤ cb.failureCount + 1 := by
      simp only [List.length_cons] at h2
      push_cast at h2
      omega
    have hstep : CircuitBreaker.recordResult cfg t true cb =
        { cb with failureCount := cb.failureCount + 1, lastFailTime := t } := by
      simp [CircuitBreaker.recordResult, h1, hnotth]
    have hfold : applyFailures cfg (t :: rest) cb =
        applyFailures cfg rest (CircuitBreaker.recordResult cfg t true cb) := rfl
    rw [hfold, hstep]
    have := ih { cb with failureCount := cb.failureCount + 1, lastFailTime := t }
      (by simpa using h1)
      (by simp only [List.length_cons] at h2 ⊢; push_cast at h2 ⊢; omega)
    refine ⟨this.1, ?_⟩
    rw [this.2]
    simp only [List.length_cons]
    push_cast
    ring

/-- Once Open, further recorded failures keep the breaker Open. -/
lemma applyFailures_open (cfg : CircuitBreakerConfig) :
    ∀ (ts : List ℤ) (cb : CBState), cb.state = .Open →
      (applyFailures cfg ts cb).state = .Open := by
  intro ts
  induction ts with
  | nil => intro cb h1; simpa [applyFailures] using h1
  | cons t rest ih =>
    intro cb h1
    have hstep : CircuitBreaker.recordResult cfg t true cb =
        { cb with failureCount := cb.failureCount + 1, lastFailTime := t } := by
      simp [CircuitBreaker.recordResult, h1]
    have hfold : applyFailures cfg (t :: rest) cb =
        applyFailures cfg rest (CircuitBreaker.recordResult cfg t true cb) := rfl
    rw [hfold, hstep]
    exact ih _ (by simpa using h1)

/-- Recording enough failures to reach the threshold from a Closed
breaker leaves it Open. -/
lemma applyFailures_opens (cfg : CircuitBreakerConfig) :
    ∀ (ts : List ℤ) (cb : CBState), cb.state = .Closed →
      cb.failureCount < cfg.FailureThreshold →
      cfg.FailureThreshold ≤ cb.failureCount + ts.length →
      (applyFailures cfg ts cb).state = .Open := by
  intro ts
  induction ts with
  | nil =>
    intro cb h1 h2 h3
    simp only [List.length_nil] at h3
    omega
  | cons t rest ih =>
    intro cb h1 h2 h3
    have hfold : applyFailures cfg (t :: rest) cb =
        applyFailures cfg rest (CircuitBreaker.recordResult cfg t true cb) := rfl
    by_cases hth : cfg.FailureThreshold ≤ cb.failureCount + 1
    · have hstep : CircuitBreaker.recordResult cfg t true cb =
          { cb with failureCount := cb.failureCount + 1, lastFailTime := t, state := .Open } := by
        simp [CircuitBreaker.recordResult, h1, hth]
      rw [hfold, hstep]
      exact applyFailures_open cfg rest _ rfl
    · have hstep : CircuitBreaker.recordResult cfg t true cb =
          { cb with failureCount := cb.failureCount + 1, lastFailTime := t } := by
        simp [CircuitBreaker.recordResult, h1, hth]
      rw [hfold, hstep]
      refine ih _ (by simpa using h1) (by simp; omega) ?_
      simp only [List.length_cons] at h3 ⊢
      push_cast at h3 ⊢
      omega

/-- When some email fails validation, `SendBatch` stops at the first such
email, wrapping its index, and leaves the state untouched (no provider
interaction of any kind). -/
lemma sendBatch_stops_on_first_invalid (c : ClientCfg) (parseOk : Address → Bool)
    (primary fallback : ℕ → Option GoError)
    (batchProvider : ℕ → Except GoError BatchResult) (jd : ℤ → ℤ)
    (emails : List Email) (now : ℤ) (st : BatchState) (i : ℕ) (e : GoError)
    (h1 : c.closed = false) (h2 : firstInvalidEmail parseOk emails = some (i, e)) :
    Client.SendBatch c parseOk primary fallback batchProvider jd emails now st =
      (.err (.indexWrap i e), st) := by
  cases emails with
  | nil => simp [firstInvalidEmail] at h2
  | cons e0 rest => simp [Client.SendBatch, h1, h2]

/-- The unit of work `sendFn` never touches the breaker state or the
guarded-invocation counter. -/
lemma sendFn_preserves (c : ClientCfg) (primary fallback : ℕ → Option GoError)
    (st : SendState) :
    (Client.sendFn c primary fallback st).2.guardedUnitCalls = st.guardedUnitCalls ∧
    (Client.sendFn c primary fallback st).2.cb = st.cb := by
  simp only [Client.sendFn]
  split <;> simp

/-- The retry loop over `sendFn` never touches the breaker state or the
guarded-invocation counter. -/
lemma retryGo_preserves (cfg : RetryConfig) (jd : ℤ → ℤ) (c : ClientCfg)
    (primary fallback : ℕ → Option GoError) :
    ∀ (r : ℕ) (a : ℤ) (le : Option GoError) (st : SendState) (ds : List ℤ),
      (retryGo cfg jd (Client.sendFn c primary fallback) r a le st ds).2.1.guardedUnitCalls =
        st.guardedUnitCalls ∧
      (retryGo cfg jd (Client.sendFn c primary fallback) r a le st ds).2.1.cb = st.cb := by
  intro r
  induction r with
  | zero => intro a le st ds; exact ⟨rfl, rfl⟩
  | succ r ih =>
    intro a le st ds
    have hp := sendFn_preserves c primary fallback st
    rcases hfs : Client.sendFn c primary fallback st with ⟨e1, s1⟩
    rw [hfs] at hp
    simp only at hp
    cases e1 with
    | none => simp only [retryGo, hfs]; exact hp
    | some err =>
      simp only [retryGo, hfs]
      by_cases hret : IsRetryable (some err) = true
      · simp only [hret]
        by_cases hr0 : r = 0
        · simp [hr0, hp.1, hp.2]
        · simp only [hr0, if_false, if_neg hr0]
          simp
          constructor
          · rw [(ih _ _ s1 _).1, hp.1]
          · rw [(ih _ _ s1 _).2, hp.2]
      · simp only [Bool.not_eq_true] at hret
        simp [hret, hp.1, hp.2]

/-- `RetryManager.Retry` over `sendFn` never touches the breaker state or
the guarded-invocation counter. -/
lemma retry_preserves (cfg : RetryConfig) (jd : ℤ → ℤ) (c : ClientCfg)
    (primary fallback : ℕ → Option GoError) (st : SendState) :
    (RetryManager.Retry cfg jd (Client.sendFn c primary fallback) st).2.1.guardedUnitCalls =
      st.guardedUnitCalls ∧
    (RetryManager.Retry cfg jd (Client.sendFn c primary fallback) st).2.1.cb = st.cb := by
  simp only [RetryManager.Retry]
  split
  · have hp := sendFn_preserves c primary fallback st
    rcases hfs : Client.sendFn c primary fallback st with ⟨e1, s1⟩
    rw [hfs] at hp
    simpa using hp
  · exact retryGo_preserves cfg jd c primary fallback _ 1 none st []

/-- The retry phase of `Client.Send` never touches the breaker state or
the guarded-invocation counter. -/
lemma retryPhase_preserves (c : ClientCfg) (primary fallback : ℕ → Option GoError)
    (jd : ℤ → ℤ) (e : Option GoError) (st : SendState) :
    (Client.retryPhase c primary fallback jd e st).2.guardedUnitCalls =
      st.guardedUnitCalls ∧
    (Client.retryPhase c primary fallback jd e st).2.cb = st.cb := by
  cases e with
  | none => cases hr : c.retryManager <;> simp [Client.retryPhase, hr]
  | some err =>
    cases hr : c.retryManager with
    | none => simp [Client.retryPhase, hr]
    | some rcfg =>
      simp only [Client.retryPhase, hr]
      by_cases hret : IsRetryable (some err) = true
      · simp only [hret, if_true]
        exact retry_preserves rcfg jd c primary fallback st
      · simp only [Bool.not_eq_true] at hret
        simp [hret]

/-- The guarded phase of `Client.Send` routes at most one unit-of-work
invocation through `CircuitBreaker.Execute`. -/
lemma sendGuardedPhase_bound (c : ClientCfg) (primary fallback : ℕ → Option GoError)
    (now : ℤ) (st : SendState) :
    (Client.sendGuardedPhase c primary fallback now st).2.guardedUnitCalls ≤
      st.guardedUnitCalls + 1 := by
  cases hcb : c.circuitBreaker with
  | none =>
    simp only [Client.sendGuardedPhase, hcb]
    rw [(sendFn_preserves c primary fallback st).1]
    omega
  | some cfg =>
    simp only [Client.sendGuardedPhase, hcb, CircuitBreaker.Execute]
    by_cases hen : cfg.Enabled = true
    · simp only [hen, Bool.not_true, Bool.false_eq_true, if_false]
      rcases hce : CircuitBreaker.canExecute cfg now st.cb with ⟨ok, cb1⟩
      cases ok with
      | false => simp
      | true =>
        simp only [Bool.not_true, Bool.false_eq_true, if_false, Bool.not_false, if_true]
        have hp := sendFn_preserves c primary fallback
          { st with guardedUnitCalls := st.guardedUnitCalls + 1 }
        rcases hfs : Client.sendFn c primary fallback
          { st with guardedUnitCalls := st.guardedUnitCalls + 1 } with ⟨e1, s1⟩
        rw [hfs] at hp
        simp only [Client.guardedSendFn, hfs]
        simp at hp
        simp [hp.1]
    · simp only [Bool.not_eq_true] at hen
      simp only [hen]
      have hp := sendFn_preserves c primary fallback
        { st with guardedUnitCalls := st.guardedUnitCalls + 1 }
      rcases hfs : Client.sendFn c primary fallback
        { st with guardedUnitCalls := st.guardedUnitCalls + 1 } with ⟨e1, s1⟩
      rw [hfs] at hp
      simp only [Client.guardedSendFn, hfs]
      simp at hp
      simp [hp.1]

/-! ### Claim theorems -/

/-- C1 (counterexample): with a circuit breaker (threshold 1) and a retry
controller (2 attempts) both configured and a provider that always fails
retryably, one `Client.Send` call performs 3 unit-of-work invocations of
which only 1 went through `CircuitBreaker.Execute` — so it is false that
every retry attempt re-enters the breaker-guarded logic. -/
theorem send_retry_bypasses_breaker_cx :
    (Client.Send clientC1 parseAll provFailR provOk (fun _ => 0) emailOkW 0 sendSt0).2.unitCalls = 3 ∧
    (Client.Send clientC1 parseAll provFailR provOk (fun _ => 0) emailOkW 0 sendSt0).2.guardedUnitCalls = 1 ∧
    (1 : ℕ) ≠ 3 :=
  ⟨rfl, rfl, by decide⟩

/-- C1 (amended): the circuit breaker guards only the initial invocation
of the unit of work. The retry phase of `Client.Send` hands the bare
`sendFn` to the retry controller, so it neither consults nor updates the
breaker (state and guarded-invocation counter unchanged), and a whole
`Send` call routes at most one unit-of-work invocation through
`CircuitBreaker.Execute`. -/
theorem send_breaker_guards_only_initial (c : ClientCfg) (parseOk : Address → Bool)
    (primary fallback : ℕ → Option GoError) (jd : ℤ → ℤ) (e : Option GoError)
    (email : Email) (now : ℤ) (st : SendState) :
    (Client.retryPhase c primary fallback jd e st).2.guardedUnitCalls =
      st.guardedUnitCalls ∧
    (Client.retryPhase c primary fallback jd e st).2.cb = st.cb ∧
    (Client.Send c parseOk primary fallback jd email now st).2.guardedUnitCalls ≤
      st.guardedUnitCalls + 1 := by
  refine ⟨(retryPhase_preserves c primary fallback jd e st).1,
    (retryPhase_preserves c primary fallback jd e st).2, ?_⟩
  by_cases hc : c.closed = true
  · simp [Client.Send, hc]
  · simp only [Bool.not_eq_true] at hc
    simp only [Client.Send, hc, Bool.false_eq_true, if_false]
    cases hto : email.To with
    | nil => simp
    | cons a rest =>
      simp only
      cases hval : Email.Validate parseOk email with
      | some err => simp
      | none =>
        simp only
        rcases hrl : (match c.rateLimiter with
          | some rlCfg => RateLimiter.Wait rlCfg email st.tokens
          | none => (none, st.tokens)) with ⟨rle, tokens1⟩
        cases rle with
        | some err => simp [hrl]
        | none =>
          simp only [hrl]
          have hg := sendGuardedPhase_bound c primary fallback now
            { st with tokens := tokens1 }
          rcases hgp : Client.sendGuardedPhase c primary fallback now
            { st with tokens := tokens1 } with ⟨ge, gst⟩
          rw [hgp] at hg
          simp only at hg
          have hrp := retryPhase_preserves c primary fallback jd ge gst
          rcases hrpe : Client.retryPhase c primary fallback jd ge gst with ⟨re, rst⟩
          rw [hrpe] at hrp
          simp only at hrp
          cases re with
          | some err => simp [hrp.1]; omega
          | none => simp [hrp.1]; omega

/-- C2 (counterexample): an enabled per-recipient limiter asked for weight
3 with only 2 tokens available returns a rate-limited outcome but leaves
the bucket at 0 tokens, not at the claimed 2 (partial consumption). -/
theorem rateLimit_cx :
    RateLimiter.Wait rlCfgC2 emailThree 2 =
      (some (.rateLimit "rate limit exceeded" 100), 0) ∧ (0 : ℕ) ≠ 2 :=
  ⟨rfl, by decide⟩

/-- C2 (amended): for every enabled rate limiter holding `t` tokens, an
acquire of weight `w > t` returns a rate-limited outcome with retry-after
`Period / Rate` and consumes all `t` available tokens, leaving the bucket
empty — tokens are taken one at a time with no rollback on failure. -/
theorem rateLimit_consumes_all_on_failure (cfg : RateLimitConfig) (email : Email) (t : ℕ)
    (h1 : cfg.Enabled = true)
    (h2 : t < (if cfg.PerRecipient then email.TotalRecipients else 1)) :
    RateLimiter.Wait cfg email t =
      (some (.rateLimit "rate limit exceeded" (goDiv cfg.Period cfg.Rate)), 0) := by
  simp only [RateLimiter.Wait, h1, Bool.not_true, Bool.false_eq_true, if_false]
  exact acquireTokens_insufficient cfg _ t h2

/-- C2 (witness): the amended theorem at the concrete scenario. -/
theorem rateLimit_consumes_witness :
    RateLimiter.Wait rlCfgC2 emailThree 2 =
      (some (.rateLimit "rate limit exceeded" (goDiv rlCfgC2.Period rlCfgC2.Rate)), 0) :=
  rateLimit_consumes_all_on_failure rlCfgC2 emailThree 2 rfl (by decide)

/-- C3 (counterexample): with a failing batch provider and a configured
fallback, a batch of 3 emails whose index-1 email is invalid makes
`SendBatch` return the index-1 validation failure with the state
untouched — no fallback sends for indices 0 and 2, no batch call, and no
batch outcome with total 3. -/
theorem sendBatch_degradation_cx :
    Client.SendBatch clientFb parseAll provFailR provOk batchFail (fun _ => 0)
        [emailOkW, emailNoTo, emailOkW] 0 bst0 =
      (.err (.indexWrap 1 (.validation "to" "at least one recipient required")), bst0) ∧
    (Client.SendBatch clientFb parseAll provFailR provOk batchFail (fun _ => 0)
        [emailOkW, emailNoTo, emailOkW] 0 bst0).2.send.fallbackCalls = 0 ∧
    (Client.SendBatch clientFb parseAll provFailR provOk batchFail (fun _ => 0)
        [emailOkW, emailNoTo, emailOkW] 0 bst0).2.batchCalls = 0 :=
  ⟨rfl, rfl, rfl⟩

/-- C3 (amended): with 3 messages where index 0 is valid and index 1 is
invalid, `SendBatch` fails atomically during upfront validation with the
index-1 validation failure; no provider call (native batch or
fallback-individual) is made, so indices 0 and 2 are not sent. -/
theorem sendBatch_invalid_message_aborts (c : ClientCfg) (parseOk : Address → Bool)
    (primary fallback : ℕ → Option GoError)
    (batchProvider : ℕ → Except GoError BatchResult) (jd : ℤ → ℤ)
    (e0 e1 e2 : Email) (now : ℤ) (st : BatchState) (err : GoError)
    (h1 : c.closed = false) (h2 : Email.Validate parseOk e0 = none)
    (h3 : Email.Validate parseOk e1 = some err) :
    Client.SendBatch c parseOk primary fallback batchProvider jd [e0, e1, e2] now st =
      (.err (.indexWrap 1 err), st) := by
  have hfi : firstInvalidEmail parseOk [e0, e1, e2] = some (1, err) := by
    simp [firstInvalidEmail, h2, h3]
  exact sendBatch_stops_on_first_invalid c parseOk primary fallback batchProvider jd
    [e0, e1, e2] now st 1 err h1 hfi

/-- C3 (witness): the amended theorem at the concrete scenario. -/
theorem sendBatch_invalid_message_aborts_witness :
    Client.SendBatch clientFb parseAll provFailR provOk batchFail (fun _ => 0)
        [emailOkW, emailNoTo, emailOkW] 0 bst0 =
      (.err (.indexWrap 1 (.validation "to" "at least one recipient required")), bst0) :=
  sendBatch_invalid_message_aborts clientFb parseAll provFailR provOk batchFail
    (fun _ => 0) emailOkW emailNoTo emailOkW 0 bst0
    (.validation "to" "at least one recipient required") rfl rfl rfl

/-- C4: from a fresh enabled breaker, recording `FailureThreshold`
consecutive failures leaves the state Open, and the very next `Execute`
call before `Timeout` has elapsed since the last failure returns the
circuit-open failure with both the breaker state and the caller state
unchanged — for every unit of work, which is therefore not invoked. -/
theorem cb_opens_and_rejects (cfg : CircuitBreakerConfig) (ts : List ℤ)
    (h1 : cfg.Enabled = true) (h2 : 1 ≤ cfg.FailureThreshold)
    (h3 : (ts.length : ℤ) = cfg.FailureThreshold) :
    (applyFailures cfg ts NewCircuitBreaker).state = .Open ∧
    ∀ {σ : Type} (now : ℤ) (fn : σ → Option GoError × σ) (s : σ),
      now - (applyFailures cfg ts NewCircuitBreaker).lastFailTime < cfg.Timeout →
      CircuitBreaker.Execute cfg now (applyFailures cfg ts NewCircuitBreaker) fn s =
        (some .circuitBreakerOpen, applyFailures cfg ts NewCircuitBreaker, s) := by
  have hopen := applyFailures_opens cfg ts NewCircuitBreaker rfl
    (by simp [NewCircuitBreaker]; omega)
    (by simp [NewCircuitBreaker]; omega)
  refine ⟨hopen, ?_⟩
  intro σ now fn s hlt
  have hcan : CircuitBreaker.canExecute cfg now (applyFailures cfg ts NewCircuitBreaker) =
      (false, applyFailures cfg ts NewCircuitBreaker) := by
    simp [CircuitBreaker.canExecute, hopen]
    omega
  simp [CircuitBreaker.Execute, h1, hcan]

/-- C4 (witness): threshold 2, two failures at times 3 and 7, rejected
probe at time 50 (before the 100ns timeout). -/
theorem cb_opens_witness :
    (applyFailures cbCfgW [3, 7] NewCircuitBreaker).state = .Open ∧
    CircuitBreaker.Execute cbCfgW 50 (applyFailures cbCfgW [3, 7] NewCircuitBreaker)
        (fun n : ℕ => (none, n + 1)) 0 =
      (some .circuitBreakerOpen, applyFailures cbCfgW [3, 7] NewCircuitBreaker, 0) :=
  ⟨(cb_opens_and_rejects cbCfgW [3, 7] rfl (by decide) (by decide)).1,
   (cb_opens_and_rejects cbCfgW [3, 7] rfl (by decide) (by decide)).2 50 _ 0 (by decide)⟩

/-- C5 (counterexample): with initial delay 3ns, multiplier 1.5 and
attempt 2, the computed delay is 4 while
`min(initialDelay × multiplier^(attempt-1), maxDelay)` is 9/2 — the code
truncates to whole nanoseconds, so the claimed exact equality fails. -/
theorem calc_delay_cx :
    RetryManager.calculateDelay cfgC5 (fun _ => 0) 2 = 4 ∧
    min ((cfgC5.InitialDelay : ℚ) * cfgC5.Multiplier ^ (((2:ℤ) - 1).toNat)) (cfgC5.MaxDelay : ℚ) = 9/2 ∧
    ((4:ℤ) : ℚ) ≠ 9/2 := by
  have hin : ((cfgC5.InitialDelay : ℚ) * cfgC5.Multiplier ^ (((2:ℤ) - 1).toNat)) = 9/2 := by
    norm_num [cfgC5]
  have hfl : ⌊(9/2 : ℚ)⌋ = 4 := by
    rw [Int.floor_eq_iff]
    norm_num
  have htr : truncQ ((cfgC5.InitialDelay : ℚ) * cfgC5.Multiplier ^ (((2:ℤ) - 1).toNat)) = 4 := by
    rw [hin, truncQ_nonneg _ (by norm_num), hfl]
  refine ⟨?_, ?_, by norm_num⟩
  · rw [calculateDelay_nojitter cfgC5 (fun _ => 0) 2 rfl, htr]
    decide
  · rw [hin, min_eq_left (by norm_num [cfgC5] : (9/2 : ℚ) ≤ (cfgC5.MaxDelay : ℚ))]

/-- C5 (amended): for every attempt in `[1, maxAttempts]` with jitter
disabled, the computed backoff delay equals
`min(trunc(initialDelay × multiplier^(attempt-1)), maxDelay)`, where
`trunc` is the truncation to whole nanoseconds performed by the
`time.Duration` conversion. -/
theorem calc_delay_amended (cfg : RetryConfig) (jd : ℤ → ℤ) (attempt : ℤ)
    (h1 : cfg.Jitter = false) (h2 : 1 ≤ attempt) (h3 : attempt ≤ cfg.MaxAttempts) :
    RetryManager.calculateDelay cfg jd attempt =
      min (truncQ ((cfg.InitialDelay : ℚ) * cfg.Multiplier ^ (attempt - 1).toNat)) cfg.MaxDelay :=
  calculateDelay_nojitter cfg jd attempt h1

/-- C5 (witness): the amended theorem at attempt 1 of the concrete
configuration. -/
theorem calc_delay_amended_witness :
    cfgC5.Jitter = false ∧
    RetryManager.calculateDelay cfgC5 (fun _ => 0) 1 =
      min (truncQ ((cfgC5.InitialDelay : ℚ) * cfgC5.Multiplier ^ (((1:ℤ) - 1).toNat))) cfgC5.MaxDelay :=
  ⟨rfl, calc_delay_amended cfgC5 (fun _ => 0) 1 rfl (by norm_num) (by decide)⟩

/-- C6: with retry enabled and any `maxAttempts ≥ 1`, a unit of work whose
first invocation fails with a non-retryable error is invoked exactly once:
`Retry` returns that failure with the state of a single invocation and an
empty list of performed delays. -/
theorem retry_stops_on_nonretryable {σ : Type} (cfg : RetryConfig) (jd : ℤ → ℤ)
    (fn : σ → Option GoError × σ) (s : σ) (e : GoError)
    (h1 : cfg.Enabled = true) (h2 : 1 ≤ cfg.MaxAttempts)
    (h3 : (fn s).1 = some e) (h4 : IsRetryable (some e) = false) :
    RetryManager.Retry cfg jd fn s = (some e, (fn s).2, []) := by
  rcases hfs : fn s with ⟨e1, s2⟩
  rw [hfs] at h3
  simp at h3
  subst h3
  obtain ⟨n, hn⟩ : ∃ n, cfg.MaxAttempts.toNat = n + 1 := ⟨cfg.MaxAttempts.toNat - 1, by omega⟩
  simp [RetryManager.Retry, h1, hn, retryGo, hfs, h4]

/-- C6 (witness): a validation failure on the first of five allowed
attempts, with an invocation-counting unit of work. -/
theorem retry_stops_witness :
    RetryManager.Retry cfgC6 (fun _ => 0) (fun n : ℕ => (some valErrW, n + 1)) 0 =
      (some valErrW, 1, []) :=
  retry_stops_on_nonretryable cfgC6 (fun _ => 0) (fun n : ℕ => (some valErrW, n + 1)) 0
    valErrW rfl (by decide) rfl rfl

/-- C7: on an open client, if some email of the batch fails validation,
`SendBatch` fails atomically with the first invalid email's validation
error wrapped with its index, leaving the state untouched — no provider
call (batch or individual) is made for any message. -/
theorem sendBatch_atomic_validation (c : ClientCfg) (parseOk : Address → Bool)
    (primary fallback : ℕ → Option GoError)
    (batchProvider : ℕ → Except GoError BatchResult) (jd : ℤ → ℤ)
    (emails : List Email) (now : ℤ) (st : BatchState) (i : ℕ) (e : GoError)
    (h1 : c.closed = false) (h2 : firstInvalidEmail parseOk emails = some (i, e)) :
    Client.SendBatch c parseOk primary fallback batchProvider jd emails now st =
      (.err (.indexWrap i e), st) :=
  sendBatch_stops_on_first_invalid c parseOk primary fallback batchProvider jd
    emails now st i e h1 h2

/-- C7 (witness): a two-email batch whose first email has no recipients. -/
theorem sendBatch_atomic_validation_witness :
    Client.SendBatch clientFb parseAll provFailR provOk batchFail (fun _ => 0)
        [emailNoTo, emailOkW] 0 bst0 =
      (.err (.indexWrap 0 (.validation "to" "at least one recipient required")), bst0) :=
  sendBatch_atomic_validation clientFb parseAll provFailR provOk batchFail (fun _ => 0)
    [emailNoTo, emailOkW] 0 bst0 0 (.validation "to" "at least one recipient required")
    rfl rfl

/-- C8: on an open client, `Client.Send` with an email whose `To` list is
empty aborts with the index-out-of-range runtime failure raised while
recording span attributes (it reads `email.To[0].Email` before
validating), whereas `Email.Validate` on that email (with a valid sender)
would have produced the "at least one recipient required" validation
error. -/
theorem send_empty_to_panics (c : ClientCfg) (parseOk : Address → Bool)
    (primary fallback : ℕ → Option GoError) (jd : ℤ → ℤ) (email : Email)
    (now : ℤ) (st : SendState)
    (h1 : c.closed = false) (h2 : email.To = []) :
    Client.Send c parseOk primary fallback jd email now st =
      (.panic "runtime error: index out of range", st) ∧
    (Address.Valid parseOk email.From = true →
      Email.Validate parseOk email =
        some (.validation "to" "at least one recipient required")) := by
  constructor
  · simp [Client.Send, h1, h2]
  · intro hv
    simp [Email.Validate, hv, h2]

/-- C8 (witness): the theorem at a concrete recipient-less email. -/
theorem send_empty_to_panics_witness :
    Client.Send clientFb parseAll provOk provOk (fun _ => 0) emailNoTo 0 sendSt0 =
      (.panic "runtime error: index out of range", sendSt0) ∧
    Email.Validate parseAll emailNoTo =
      some (.validation "to" "at least one recipient required") :=
  ⟨(send_empty_to_panics clientFb parseAll provOk provOk (fun _ => 0) emailNoTo 0 sendSt0
      rfl rfl).1,
   (send_empty_to_panics clientFb parseAll provOk provOk (fun _ => 0) emailNoTo 0 sendSt0
      rfl rfl).2 rfl⟩

/-- C9: `IsRetryable` is false for a nil error, for every
`*RateLimitError`, and for `ErrCircuitBreakerOpen`; consequently the retry
phase of `Client.Send` returns a rate-limited or circuit-open failure of
the guarded unit of work unchanged, without handing it to the retry
controller (state untouched). -/
theorem nonretryable_classification :
    IsRetryable none = false ∧
    (∀ (m : String) (ra : ℤ), IsRetryable (some (.rateLimit m ra)) = false) ∧
    IsRetryable (some .circuitBreakerOpen) = false ∧
    (∀ (c : ClientCfg) (primary fallback : ℕ → Option GoError) (jd : ℤ → ℤ)
      (st : SendState) (m : String) (ra : ℤ),
      Client.retryPhase c primary fallback jd (some (.rateLimit m ra)) st =
        (some (.rateLimit m ra), st)) ∧
    (∀ (c : ClientCfg) (primary fallback : ℕ → Option GoError) (jd : ℤ → ℤ)
      (st : SendState),
      Client.retryPhase c primary fallback jd (some .circuitBreakerOpen) st =
        (some .circuitBreakerOpen, st)) := by
  refine ⟨rfl, fun m ra => rfl, rfl, ?_, ?_⟩
  · intro c primary fallback jd st m ra
    cases hr : c.retryManager with
    | none => simp [Client.retryPhase, hr]
    | some rcfg => simp [Client.retryPhase, hr, IsRetryable, asProviderRetryable]
  · intro c primary fallback jd st
    cases hr : c.retryManager with
    | none => simp [Client.retryPhase, hr]
    | some rcfg => simp [Client.retryPhase, hr, IsRetryable, asProviderRetryable]

/-- C10: `Client.Close` on an already-closed client returns nil, leaves
the client unchanged (the closed flag stays true), and runs no
resource-release action. -/
theorem close_noop_when_closed (c : ClientCfg) (h : c.closed = true) :
    Client.Close c = (none, c, false) := by
  simp [Client.Close, h]

/-- C10 (witness): the theorem at a concrete closed client. -/
theorem close_noop_witness : Client.Close closedClientW = (none, closedClientW, false) :=
  close_noop_when_closed closedClientW rfl
